import Mathlib

/-!
Verification of the fantasy-UFC drafting client (`src/App.tsx`).

The draft core of the repository is shallowly embedded below: JavaScript
objects used as string-keyed maps become association lists
(`List (String × β)`) read with `oget` and written with `objSet`
(mirroring the semantics of `{...obj, [k]: v}` spread updates),
`Date.now()` timestamps become an explicit `now : Nat` argument,
Firestore writes become explicit state transformation, and every
`setError(...); return` early exit becomes an `Option`/`none` result
(rejection with no state written).
-/

set_option maxRecDepth 4096

/-- The 11 official UFC weight classes (`WEIGHT_CLASSES` in `App.tsx`). -/
def WEIGHT_CLASSES : List String :=
  ["Heavyweight", "Light Heavyweight", "Middleweight", "Welterweight",
   "Lightweight", "Featherweight", "Bantamweight", "Flyweight",
   "W.Bantamweight", "W.Flyweight", "W.Strawweight"]

/-- A fighter record as returned by the catalog backend. -/
structure Fighter where
  id : String
  name : String
  weightClass : String
  imageUrl : String
  opponent : Option String
  fightDate : Option String
  hasScheduledBout : Option Bool
deriving DecidableEq, Repr

/-- The fighter snapshot written into a roster slot (`pickedFighterData`
in `makePick`): the fields `{id, name, weightClass, imageUrl, opponent,
fightDate}` are copied, `hasScheduledBout` is dropped. -/
structure PickedFighter where
  id : String
  name : String
  weightClass : String
  imageUrl : String
  opponent : Option String
  fightDate : Option String
deriving DecidableEq, Repr

/-- Build the roster snapshot from a catalog fighter (`pickedFighterData`). -/
def toPicked (f : Fighter) : PickedFighter :=
  { id := f.id, name := f.name, weightClass := f.weightClass,
    imageUrl := f.imageUrl, opponent := f.opponent, fightDate := f.fightDate }

/-- Read a key of a JS object modelled as an association list
(`obj[k]`, `undefined` becoming `none`). -/
def oget {β : Type} : List (String × β) → String → Option β
  | [], _ => none
  | p :: rest, k => if p.1 = k then some p.2 else oget rest k

/-- The keys of a JS object (`Object.keys`). -/
def okeys {β : Type} (m : List (String × β)) : List String :=
  m.map Prod.fst

/-- The values of a JS object (`Object.values`). -/
def ovals {β : Type} (m : List (String × β)) : List β :=
  m.map Prod.snd

/-- JS spread update `{...m, [k]: v}`: an existing key keeps its
position and gets the new value, a fresh key is appended at the end. -/
def objSet {β : Type} (m : List (String × β)) (k : String) (v : β) :
    List (String × β) :=
  if (oget m k).isSome then m.map (fun p => if p.1 = k then (k, v) else p)
  else m ++ [(k, v)]

/-- A player's roster: slot key (weight-class name or `"Flex"`) ↦ fighter
snapshot (`draftedFighters[playerId]` in the Firestore document). -/
abbrev Roster := List (String × PickedFighter)

/-- The competition document (the Firestore aggregate root). `null`
fields become `Option`, the `status` string is kept verbatim. -/
structure Competition where
  name : String
  players : List String
  playerNames : List (String × String)
  status : String
  createdAt : Nat
  draftOrder : List String
  currentPickIndex : Nat
  currentPickerId : Option String
  currentPickStartTime : Option Nat
  draftedFighters : List (String × Roster)
  creatorId : String
deriving DecidableEq, Repr

/-- JS coercion `x || null` applied to an optional string: `undefined`
and the falsy empty string both become `null`. -/
def orNull (s : Option String) : Option String :=
  match s with
  | none => none
  | some v => if v = "" then none else some v

/-- The JS whitespace test used by `String.prototype.trim`. -/
def isJsSpace (ch : Char) : Bool :=
  ch = ' ' || ch = '\t' || ch = '\n' || ch = '\r'

/-- The JS `.trim()`: strip leading and trailing whitespace. -/
def jsTrim (s : String) : String :=
  ⟨((s.data.dropWhile isJsSpace).reverse.dropWhile isJsSpace).reverse⟩

/-- `createCompetition` in `App.tsx`: rejects (`none`) when the actor id
is falsy or the trimmed name is empty, otherwise produces the fresh
`setup` document written by `setDoc`. -/
def createCompetition (competitionName userId displayName : String)
    (now : Nat) : Option Competition :=
  if userId = "" then none
  else if jsTrim competitionName = "" then none
  else some
    { name := jsTrim competitionName
      players := [userId]
      playerNames := [(userId, displayName)]
      status := "setup"
      createdAt := now
      draftOrder := []
      currentPickIndex := 0
      currentPickerId := none
      currentPickStartTime := none
      draftedFighters := []
      creatorId := userId }

/-- `joinCompetition` in `App.tsx`, applied to the competition document
the entered id resolved to: rejects unless `status == 'setup'`; appends
the participant (`arrayUnion`) and records the display name when not
already a member; is a no-op when already a member. -/
def joinCompetition (userId displayName : String) (c : Competition) :
    Option Competition :=
  if userId = "" then none
  else if c.status ≠ "setup" then none
  else if c.players.contains userId then some c
  else some { c with
    players := c.players ++ [userId]
    playerNames := objSet c.playerNames userId displayName }

/-- `generateSnakeDraftOrder` in `App.tsx`: concatenate `rounds` copies
of the player list, reversing the copy on every odd round index. -/
def generateSnakeDraftOrder (players : List String) (rounds : Nat) :
    List String :=
  (List.range rounds).flatMap
    (fun i => if i % 2 = 0 then players else players.reverse)

/-- `shufflePlayers` in `App.tsx`: the creator may replace `players`
by a random permutation (`shuffled` is the output of the random sort)
while the competition is still in `setup`. -/
def shufflePlayers (userId : String) (shuffled : List String)
    (c : Competition) : Option Competition :=
  if c.creatorId ≠ userId then none
  else if c.status ≠ "setup" then none
  else some { c with players := shuffled }

/-- `movePlayer` in `App.tsx`: the creator swaps a player with its
immediate neighbour (up when `up = true`) during `setup`; a no-op
rejection at either boundary or when the player is absent. -/
def movePlayer (userId playerToMoveId : String) (up : Bool)
    (c : Competition) : Option Competition :=
  if c.creatorId ≠ userId then none
  else if c.status ≠ "setup" then none
  else
    let players := c.players
    match players.indexOf? playerToMoveId with
    | none => none
    | some index =>
      if up ∧ 0 < index then
        let swapped :=
          (players.set (index - 1) (players.getD index "")).set index
            (players.getD (index - 1) "")
        some { c with players := swapped }
      else if ¬ up ∧ index < players.length - 1 then
        let swapped :=
          (players.set (index + 1) (players.getD index "")).set index
            (players.getD (index + 1) "")
        some { c with players := swapped }
      else none

/-- `startDraft` in `App.tsx`: creator-only, `setup`-only, non-empty
player list; computes the snake order over `WEIGHT_CLASSES.length + 1`
rounds, seeds one empty roster per player and opens the first turn. -/
def startDraft (userId : String) (now : Nat) (c : Competition) :
    Option Competition :=
  if c.creatorId ≠ userId then none
  else if c.status ≠ "setup" then none
  else if c.players.length = 0 then none
  else
    let roundsPerPlayer := WEIGHT_CLASSES.length + 1
    let draftOrder := generateSnakeDraftOrder c.players roundsPerPlayer
    some { c with
      status := "in_progress"
      draftOrder := draftOrder
      currentPickIndex := 0
      currentPickerId := draftOrder[0]?
      currentPickStartTime := some now
      draftedFighters := c.players.map (fun pId => (pId, ([] : Roster))) }

/-- The slot-assignment logic of `makePick` (`App.tsx` lines 455–480):
prefer the fighter's own weight-class slot when that slot is unset, the
class is one of the 11 known ones and fewer than 11 non-Flex slots are
filled; otherwise fall back to an open Flex slot; otherwise reject. -/
def assignSlot (roster : Roster) (fighter : Fighter) : Option String :=
  let hasFlexPicked := (oget roster "Flex").isSome
  let weightClassPicksCount :=
    ((okeys roster).filter (fun key => key != "Flex")).length
  let isWeightClassSlotAvailable :=
    (oget roster fighter.weightClass).isNone &&
      WEIGHT_CLASSES.contains fighter.weightClass
  if isWeightClassSlotAvailable &&
      decide (weightClassPicksCount < WEIGHT_CLASSES.length) then
    some fighter.weightClass
  else if ! hasFlexPicked then some "Flex"
  else none

/-- `Object.values(draftedFighters).flatMap(Object.values).map(f => f.id)`:
every drafted fighter id across all rosters of the competition. -/
def allDraftedFighterIds (c : Competition) : List String :=
  (ovals c.draftedFighters).flatMap (fun playerPicks =>
    (ovals playerPicks).map PickedFighter.id)

/-- `getUndraftedFighters(true)` in `App.tsx`: the drafted-id list, but
`[]` whenever the fighter catalog list is empty (the guard on its first
line). -/
def getUndraftedFighterIds (c : Competition) (allFighters : List Fighter) :
    List String :=
  if allFighters.length = 0 then [] else allDraftedFighterIds c

/-- `getUndraftedFighters()` in `App.tsx`: catalog fighters whose id is
in no roster, `[]` when the catalog list is empty. -/
def getUndraftedFighters (c : Competition) (allFighters : List Fighter) :
    List Fighter :=
  if allFighters.length = 0 then []
  else allFighters.filter
    (fun fighter => ! (allDraftedFighterIds c).contains fighter.id)

/-- The five Firestore fields written by the single `updateDoc` call
committing a pick (`App.tsx` lines 513–519). -/
structure PickUpdate where
  draftedFighters : List (String × Roster)
  currentPickIndex : Nat
  currentPickerId : Option String
  currentPickStartTime : Option Nat
  status : String
deriving DecidableEq, Repr

/-- The validation and payload computation of `makePick`, performed
against the client's snapshot `c` of the competition: turn check, draft
status check, own-duplicate check, slot assignment, global-duplicate
check; on success the computed update payload. Every `none` is a
`setError(...); return` path that writes nothing. -/
def pickUpdateOf (userId : String) (now : Nat) (fighter : Fighter)
    (allFighters : List Fighter) (c : Competition) : Option PickUpdate :=
  if c.currentPickerId ≠ some userId then none
  else if c.status ≠ "in_progress" then none
  else
    let playerDraftedFighters := (oget c.draftedFighters userId).getD []
    if (ovals playerDraftedFighters).any (fun f => f.id == fighter.id) then
      none
    else
      match assignSlot playerDraftedFighters fighter with
      | none => none
      | some assignedSlot =>
        if (getUndraftedFighterIds c allFighters).contains fighter.id then
          none
        else
          let nextPickIndex := c.currentPickIndex + 1
          let nextPickerId := c.draftOrder[nextPickIndex]?
          let newStatus :=
            if c.draftOrder.length ≤ nextPickIndex then "completed"
            else "in_progress"
          some
            { draftedFighters :=
                objSet c.draftedFighters userId
                  (objSet playerDraftedFighters assignedSlot
                    (toPicked fighter))
              currentPickIndex := nextPickIndex
              currentPickerId := orNull nextPickerId
              currentPickStartTime :=
                if newStatus = "in_progress" then some now else none
              status := newStatus }

/-- `updateDoc` semantics: overwrite exactly the named fields of the
authoritative document, unconditionally, keeping the rest. -/
def applyPickUpdate (store : Competition) (u : PickUpdate) : Competition :=
  { store with
    draftedFighters := u.draftedFighters
    currentPickIndex := u.currentPickIndex
    currentPickerId := u.currentPickerId
    currentPickStartTime := u.currentPickStartTime
    status := u.status }

/-- `makePick` in `App.tsx`, in the race-free case where the snapshot the
client validated against is the authoritative document itself. -/
def makePick (userId : String) (now : Nat) (fighter : Fighter)
    (allFighters : List Fighter) (c : Competition) : Option Competition :=
  (pickUpdateOf userId now fighter allFighters c).map (applyPickUpdate c)

/-- `makePick` as executed by a client holding snapshot `snapshot` while
the authoritative store document has meanwhile become `store`: the
payload is computed from the snapshot and `updateDoc` applies it to the
store document with no precondition (no transaction, no conditional
write anywhere in `makePick`). -/
def makePickAt (snapshot store : Competition) (userId : String) (now : Nat)
    (fighter : Fighter) (allFighters : List Fighter) : Option Competition :=
  (pickUpdateOf userId now fighter allFighters snapshot).map
    (applyPickUpdate store)

/-- `handleDisplayNameChange` in `App.tsx`, restricted to its effect on
the competition document: update `playerNames[userId]`, in any phase. -/
def renameDisplayName (userId newName : String) (c : Competition) :
    Option Competition :=
  if userId = "" then none
  else some { c with playerNames := objSet c.playerNames userId newName }

/-- `getMyAvailablePicks` in `App.tsx`: the undrafted fighters the
current picker could legally place, by the mirrored slot arithmetic. -/
def getMyAvailablePicks (c : Competition) (userId : String)
    (allFighters : List Fighter) : List Fighter :=
  if userId = "" then []
  else if c.currentPickerId ≠ some userId then []
  else if allFighters.length = 0 then []
  else
    let playerDraftedFighters := (oget c.draftedFighters userId).getD []
    let playerPickedWeightClasses :=
      (okeys playerDraftedFighters).filter (fun key => key != "Flex")
    let availableSpecificSlots :=
      WEIGHT_CLASSES.filter
        (fun wc => ! playerPickedWeightClasses.contains wc)
    let flexSlotOpen := (oget playerDraftedFighters "Flex").isNone
    let weightClassPicksCount := playerPickedWeightClasses.length
    let requiredSpecificPicksRemaining : Int :=
      (WEIGHT_CLASSES.length : Int) - (weightClassPicksCount : Int)
    (getUndraftedFighters c allFighters).filter (fun fighter =>
      (availableSpecificSlots.contains fighter.weightClass &&
        (oget playerDraftedFighters fighter.weightClass).isNone) ||
      (flexSlotOpen &&
        (requiredSpecificPicksRemaining == 0 ||
          ! availableSpecificSlots.contains fighter.weightClass)))

/-- How many players' rosters contain the fighter id `fid`. -/
def rostersContaining (c : Competition) (fid : String) : Nat :=
  (c.draftedFighters.filter (fun p =>
    (ovals p.2).any (fun f => f.id == fid))).length

theorem generateSnakeDraftOrder_succ (players : List String) (r : Nat) :
    generateSnakeDraftOrder players (r + 1) =
      generateSnakeDraftOrder players r ++
        (if r % 2 = 0 then players else players.reverse) := by
  simp [generateSnakeDraftOrder, List.range_succ]

theorem generateSnakeDraftOrder_length (players : List String) (rounds : Nat) :
    (generateSnakeDraftOrder players rounds).length =
      players.length * rounds := by
  induction rounds with
  | zero => simp [generateSnakeDraftOrder]
  | succ r ih =>
    rw [generateSnakeDraftOrder_succ, List.length_append, ih]
    have hb : (if r % 2 = 0 then players else players.reverse).length =
        players.length := by
      split <;> simp
    rw [hb, Nat.mul_succ]

theorem generateSnakeDraftOrder_round (players : List String) (rounds i : Nat)
    (h : i < rounds) :
    ((generateSnakeDraftOrder players rounds).drop
        (i * players.length)).take players.length =
      (if i % 2 = 0 then players else players.reverse) := by
  induction rounds with
  | zero => omega
  | succ r ih =>
    rw [generateSnakeDraftOrder_succ]
    rcases Nat.lt_succ_iff_lt_or_eq.mp h with hlt | rfl
    · have hiN : i * players.length ≤
          (generateSnakeDraftOrder players r).length := by
        rw [generateSnakeDraftOrder_length]
        calc i * players.length = players.length * i := Nat.mul_comm _ _
          _ ≤ players.length * r := Nat.mul_le_mul_left _ (Nat.le_of_lt hlt)
      have hN : players.length ≤
          ((generateSnakeDraftOrder players r).drop
            (i * players.length)).length := by
        rw [List.length_drop, generateSnakeDraftOrder_length,
          Nat.mul_comm i players.length]
        have h1 : players.length * (i + 1) ≤ players.length * r :=
          Nat.mul_le_mul_left _ hlt
        rw [Nat.mul_succ] at h1
        omega
      rw [List.drop_append_of_le_length hiN,
        List.take_append_of_le_length hN]
      exact ih hlt
    · have hlen : i * players.length =
          (generateSnakeDraftOrder players i).length := by
        rw [generateSnakeDraftOrder_length, Nat.mul_comm]
      rw [hlen, List.drop_left]
      split <;> simp

/-- C4: for every player list and round count, the snake generator yields
`N × R` picks, round `i` is the player list forward on even `i` and
reversed on odd `i`, and an empty player list yields an empty sequence
(determinism is inherent: `generateSnakeDraftOrder` is a pure function
of its arguments). -/
theorem snake_order_spec (players : List String) (rounds i : Nat)
    (h : i < rounds) :
    (generateSnakeDraftOrder players rounds).length =
        players.length * rounds ∧
    ((generateSnakeDraftOrder players rounds).drop
        (i * players.length)).take players.length =
      (if i % 2 = 0 then players else players.reverse) ∧
    generateSnakeDraftOrder [] rounds = [] :=
  ⟨generateSnakeDraftOrder_length players rounds,
   generateSnakeDraftOrder_round players rounds i h,
   by simp [generateSnakeDraftOrder]⟩

/-- Witness for C4 at players `[a, b]`, 12 rounds, round 1. -/
theorem snake_order_spec_witness :
    1 < 12 ∧
    ((generateSnakeDraftOrder ["a", "b"] 12).length =
        (["a", "b"] : List String).length * 12 ∧
      ((generateSnakeDraftOrder ["a", "b"] 12).drop
          (1 * (["a", "b"] : List String).length)).take
          (["a", "b"] : List String).length =
        (if 1 % 2 = 0 then ["a", "b"] else (["a", "b"] : List String).reverse) ∧
      generateSnakeDraftOrder [] 12 = []) :=
  ⟨by decide, snake_order_spec ["a", "b"] 12 1 (by decide)⟩

/-- The full effect of a committed pick: exactly the `updateDoc` payload
fields of `makePick`, restated with the status conditional resolved. -/
def pickCommitResult (c : Competition) (userId : String) (now : Nat)
    (fighter : Fighter) (slot : String) : Competition :=
  { c with
    draftedFighters :=
      objSet c.draftedFighters userId
        (objSet ((oget c.draftedFighters userId).getD []) slot
          (toPicked fighter))
    currentPickIndex := c.currentPickIndex + 1
    currentPickerId := orNull c.draftOrder[c.currentPickIndex + 1]?
    currentPickStartTime :=
      if c.draftOrder.length ≤ c.currentPickIndex + 1 then none
      else some now
    status :=
      if c.draftOrder.length ≤ c.currentPickIndex + 1 then "completed"
      else "in_progress" }

/-- Anatomy of a successful `makePick`: the pick passed the turn,
status, own-duplicate, slot and global-duplicate checks, and the result
is exactly the single-update commit `pickCommitResult`. -/
theorem makePick_some_shape (userId : String) (now : Nat) (fighter : Fighter)
    (allFighters : List Fighter) (c c' : Competition)
    (h : makePick userId now fighter allFighters c = some c') :
    ∃ slot,
      assignSlot ((oget c.draftedFighters userId).getD []) fighter =
        some slot ∧
      c.currentPickerId = some userId ∧
      c.status = "in_progress" ∧
      (ovals ((oget c.draftedFighters userId).getD [])).any
        (fun f => f.id == fighter.id) = false ∧
      (getUndraftedFighterIds c allFighters).contains fighter.id = false ∧
      c' = pickCommitResult c userId now fighter slot := by
  by_cases h1 : c.currentPickerId = some userId
  case neg => simp [makePick, pickUpdateOf, h1] at h
  by_cases h2 : c.status = "in_progress"
  case neg => simp [makePick, pickUpdateOf, h1, h2] at h
  by_cases h3 : (ovals ((oget c.draftedFighters userId).getD [])).any
      (fun f => f.id == fighter.id) = true
  case pos => simp [makePick, pickUpdateOf, h1, h2, h3] at h
  cases hslot : assignSlot ((oget c.draftedFighters userId).getD []) fighter
    with
  | none => simp [makePick, pickUpdateOf, h1, h2, h3, hslot] at h
  | some slot =>
    by_cases h4 : fighter.id ∈ getUndraftedFighterIds c allFighters
    case pos => simp [makePick, pickUpdateOf, h1, h2, h3, hslot, h4] at h
    simp [makePick, pickUpdateOf, h1, h2, h3, hslot, h4] at h
    refine ⟨slot, rfl, h1, h2, by simpa using h3, by simpa using h4, ?_⟩
    rw [← h]
    simp only [applyPickUpdate, pickCommitResult]
    by_cases h5 : c.draftOrder.length ≤ c.currentPickIndex + 1
    · have h6 : ¬ (c.currentPickIndex + 1 < c.draftOrder.length) := by omega
      simp [h5, h6]
    · have h6 : c.currentPickIndex + 1 < c.draftOrder.length := by omega
      simp [h5, h6]

theorem oget_map_update {β : Type} (m : List (String × β)) (k : String)
    (v : β) (h : (oget m k).isSome = true) :
    oget (m.map (fun p => if p.1 = k then (k, v) else p)) k = some v := by
  induction m with
  | nil => simp [oget] at h
  | cons p rest ih =>
    by_cases hp : p.1 = k
    · simp [oget, hp]
    · rw [oget, if_neg hp] at h
      simpa [oget, hp] using ih h

theorem oget_append_single {β : Type} (m : List (String × β)) (k : String)
    (v : β) (h : oget m k = none) :
    oget (m ++ [(k, v)]) k = some v := by
  induction m with
  | nil => simp [oget]
  | cons p rest ih =>
    rw [oget] at h
    by_cases hp : p.1 = k
    · rw [if_pos hp] at h; cases h
    · rw [if_neg hp] at h
      simpa [oget, hp] using ih h

theorem oget_objSet_self {β : Type} (m : List (String × β)) (k : String)
    (v : β) : oget (objSet m k v) k = some v := by
  unfold objSet
  by_cases h : (oget m k).isSome
  · rw [if_pos h]
    exact oget_map_update m k v h
  · rw [if_neg h]
    exact oget_append_single m k v (Option.not_isSome_iff_eq_none.mp h)

theorem oget_map_update_other {β : Type} (m : List (String × β))
    (k k' : String) (v : β) (h : k' ≠ k) :
    oget (m.map (fun p => if p.1 = k then (k, v) else p)) k' = oget m k' := by
  induction m with
  | nil => simp [oget]
  | cons p rest ih =>
    by_cases hp : p.1 = k
    · have hk : p.1 ≠ k' := by rw [hp]; exact Ne.symm h
      simp [oget, hp, Ne.symm h, hk, ih]
    · by_cases hp2 : p.1 = k'
      · simp [oget, hp, hp2, h]
      · simp [oget, hp, hp2, ih]

theorem oget_append_single_other {β : Type} (m : List (String × β))
    (k k' : String) (v : β) (h : k' ≠ k) :
    oget (m ++ [(k, v)]) k' = oget m k' := by
  induction m with
  | nil => simp [oget, Ne.symm h]
  | cons p rest ih =>
    by_cases hp2 : p.1 = k'
    · simp [oget, hp2]
    · simp [oget, hp2, ih]

theorem oget_objSet_other {β : Type} (m : List (String × β)) (k k' : String)
    (v : β) (h : k' ≠ k) : oget (objSet m k v) k' = oget m k' := by
  unfold objSet
  split
  · exact oget_map_update_other m k k' v h
  · exact oget_append_single_other m k k' v h

theorem makePick_none_of_no_slot (userId : String) (now : Nat)
    (fighter : Fighter) (allFighters : List Fighter) (c : Competition)
    (hslot : assignSlot ((oget c.draftedFighters userId).getD []) fighter =
      none) :
    makePick userId now fighter allFighters c = none := by
  cases hm : makePick userId now fighter allFighters c with
  | none => rfl
  | some c' =>
    obtain ⟨slot, hs, -⟩ :=
      makePick_some_shape userId now fighter allFighters c c' hm
    rw [hslot] at hs
    cases hs


/-- C2: for every roster and fighter not already in it, if the fighter's
weight-class slot is unset and fewer than 11 weight-class slots are
filled, the slot logic of `makePick` assigns that weight-class slot and
never Flex; otherwise, when Flex is unset it assigns Flex (in
particular with all 11 weight-class slots filled and Flex open), and
when Flex is filled the pick is rejected with no slot available. -/
theorem assign_slot_priority (roster : Roster) (fighter : Fighter)
    (hnotin : (ovals roster).any (fun f => f.id == fighter.id) = false)
    (hwc : fighter.weightClass ∈ WEIGHT_CLASSES) :
    ((oget roster fighter.weightClass = none ∧
        ((okeys roster).filter (fun key => key != "Flex")).length <
          WEIGHT_CLASSES.length) →
      (assignSlot roster fighter = some fighter.weightClass ∧
        fighter.weightClass ≠ "Flex")) ∧
    (¬ (oget roster fighter.weightClass = none ∧
        ((okeys roster).filter (fun key => key != "Flex")).length <
          WEIGHT_CLASSES.length) →
      ((oget roster "Flex" = none → assignSlot roster fighter = some "Flex") ∧
       ((oget roster "Flex").isSome → assignSlot roster fighter = none))) := by
  constructor
  · rintro ⟨hun, hcount⟩
    constructor
    · simp [assignSlot, hun, hwc, hcount]
    · intro hfx
      rw [hfx] at hwc
      simp [WEIGHT_CLASSES] at hwc
  · intro hno
    rcases Decidable.not_and_iff_or_not.mp hno with hun | hcount
    · constructor
      · intro hflex
        simp [assignSlot, Option.isNone_iff_eq_none, hun, hflex]
      · intro hflex
        simp [assignSlot, Option.isNone_iff_eq_none, hun,
          Option.isSome_iff_ne_none.mp hflex]
    · constructor
      · intro hflex
        simp [assignSlot, hcount, hflex]
      · intro hflex
        simp [assignSlot, hcount, Option.isSome_iff_ne_none.mp hflex]


/-- C3: for every in-progress competition a pick never decreases
`currentPickIndex`, and a successful pick increases it by exactly 1; if
the new index equals the `draftOrder` length, the status becomes
`completed` and `currentPickerId` and `currentPickStartTime` become
null, otherwise `currentPickerId` becomes `draftOrder[new index]` and
`currentPickStartTime` is reset to the current time. -/
theorem pick_advances_index (userId : String) (now : Nat) (fighter : Fighter)
    (allFighters : List Fighter) (c : Competition)
    (hst : c.status = "in_progress")
    (hlt : c.currentPickIndex < c.draftOrder.length)
    (hne : "" ∉ c.draftOrder) :
    c.currentPickIndex ≤
      ((makePick userId now fighter allFighters c).getD c).currentPickIndex ∧
    ∀ c', makePick userId now fighter allFighters c = some c' →
      c'.currentPickIndex = c.currentPickIndex + 1 ∧
      (c.currentPickIndex + 1 = c.draftOrder.length →
        c'.status = "completed" ∧ c'.currentPickerId = none ∧
        c'.currentPickStartTime = none) ∧
      (c.currentPickIndex + 1 ≠ c.draftOrder.length →
        c'.status = "in_progress" ∧
        c'.currentPickerId = c.draftOrder[c.currentPickIndex + 1]? ∧
        c'.currentPickStartTime = some now) := by
  have key : ∀ c', makePick userId now fighter allFighters c = some c' →
      c'.currentPickIndex = c.currentPickIndex + 1 ∧
      (c.currentPickIndex + 1 = c.draftOrder.length →
        c'.status = "completed" ∧ c'.currentPickerId = none ∧
        c'.currentPickStartTime = none) ∧
      (c.currentPickIndex + 1 ≠ c.draftOrder.length →
        c'.status = "in_progress" ∧
        c'.currentPickerId = c.draftOrder[c.currentPickIndex + 1]? ∧
        c'.currentPickStartTime = some now) := by
    intro c' hm
    obtain ⟨slot, -, -, -, -, -, rfl⟩ :=
      makePick_some_shape userId now fighter allFighters c c' hm
    refine ⟨rfl, ?_, ?_⟩
    · intro heq
      have hle : c.draftOrder.length ≤ c.currentPickIndex + 1 := by omega
      have hnone : c.draftOrder[c.currentPickIndex + 1]? = none := by
        rw [List.getElem?_eq_none_iff]
        omega
      simp [pickCommitResult, hle, hnone, orNull]
    · intro hneq
      have hlt2 : c.currentPickIndex + 1 < c.draftOrder.length := by omega
      have hnle : ¬ c.draftOrder.length ≤ c.currentPickIndex + 1 := by omega
      have hsome : c.draftOrder[c.currentPickIndex + 1]? =
          some (c.draftOrder[c.currentPickIndex + 1]) :=
        List.getElem?_eq_getElem hlt2
      have hmem : c.draftOrder[c.currentPickIndex + 1] ∈ c.draftOrder :=
        List.getElem_mem hlt2
      have hnz : c.draftOrder[c.currentPickIndex + 1] ≠ "" := by
        intro hc
        exact hne (hc ▸ hmem)
      simp [pickCommitResult, hnle, hsome, orNull, hnz]
  constructor
  · cases hm : makePick userId now fighter allFighters c with
    | none => simp
    | some c' =>
      have := (key c' hm).1
      simp [this]
  · exact key


/-- C8: every pick either rejects with no change to the competition
document (`none`: nothing is written), or commits all of its effects —
the roster write, the `currentPickIndex` advance and the
picker/status/timer updates — in the one `updateDoc` payload, never one
without the others; all other fields are untouched. -/
theorem pick_atomic (userId : String) (now : Nat) (fighter : Fighter)
    (allFighters : List Fighter) (c : Competition) :
    makePick userId now fighter allFighters c = none ∨
    ∃ c' slot,
      makePick userId now fighter allFighters c = some c' ∧
      assignSlot ((oget c.draftedFighters userId).getD []) fighter =
        some slot ∧
      c'.draftedFighters =
        objSet c.draftedFighters userId
          (objSet ((oget c.draftedFighters userId).getD []) slot
            (toPicked fighter)) ∧
      c'.currentPickIndex = c.currentPickIndex + 1 ∧
      c'.status = (if c.draftOrder.length ≤ c.currentPickIndex + 1
        then "completed" else "in_progress") ∧
      c'.currentPickerId = orNull c.draftOrder[c.currentPickIndex + 1]? ∧
      c'.currentPickStartTime = (if c.draftOrder.length ≤
        c.currentPickIndex + 1 then none else some now) ∧
      c'.players = c.players ∧ c'.draftOrder = c.draftOrder ∧
      c'.name = c.name ∧ c'.creatorId = c.creatorId := by
  cases hm : makePick userId now fighter allFighters c with
  | none => exact Or.inl rfl
  | some c' =>
    right
    obtain ⟨slot, hslot, -, -, -, -, rfl⟩ :=
      makePick_some_shape userId now fighter allFighters c c' hm
    exact ⟨pickCommitResult c userId now fighter slot, slot, rfl, hslot,
      rfl, rfl, rfl, rfl, rfl, rfl, rfl, rfl, rfl⟩


/-- C10: a pick of a fighter whose `weightClass` is not one of the 11
listed weight classes is assigned the Flex slot exactly when Flex is
unset (any committed pick adds only the `Flex` key to the roster, never
a key named after the unknown weight class), and is rejected when Flex
is already filled, even with all 11 weight-class slots empty. -/
theorem unknown_wc_flex (c : Competition) (userId : String) (now : Nat)
    (fighter : Fighter) (allFighters : List Fighter)
    (hwc : fighter.weightClass ∉ WEIGHT_CLASSES) :
    (assignSlot ((oget c.draftedFighters userId).getD []) fighter =
      if (oget ((oget c.draftedFighters userId).getD []) "Flex").isSome
      then none else some "Flex") ∧
    ((oget ((oget c.draftedFighters userId).getD []) "Flex").isSome →
      makePick userId now fighter allFighters c = none) ∧
    (∀ c', makePick userId now fighter allFighters c = some c' →
      oget c'.draftedFighters userId =
        some (objSet ((oget c.draftedFighters userId).getD []) "Flex"
          (toPicked fighter))) := by
  have hassign : assignSlot ((oget c.draftedFighters userId).getD [])
      fighter =
      if (oget ((oget c.draftedFighters userId).getD [])
        "Flex").isSome then none else some "Flex" := by
    by_cases hflex :
      (oget ((oget c.draftedFighters userId).getD []) "Flex").isSome
    · simp [assignSlot, hwc, hflex]
    · simp [assignSlot, hwc, hflex]
  refine ⟨hassign, ?_, ?_⟩
  · intro hflex
    apply makePick_none_of_no_slot
    rw [hassign, if_pos hflex]
  · intro c' hm
    obtain ⟨slot, hslot, -, -, -, -, rfl⟩ :=
      makePick_some_shape userId now fighter allFighters c c' hm
    rw [hassign] at hslot
    by_cases hflex :
      (oget ((oget c.draftedFighters userId).getD []) "Flex").isSome
    · rw [if_pos hflex] at hslot; cases hslot
    · rw [if_neg hflex] at hslot
      obtain rfl := (Option.some.injEq _ _).mp hslot
      simp [pickCommitResult, oget_objSet_self]


/-- C5: starting a setup-phase competition with a non-empty player list
as the creator sets status to `in_progress`, `draftOrder` to the snake
order over 12 rounds (of length `players.length × 12`),
`currentPickIndex` to 0, `currentPickerId` to `draftOrder[0]`,
`currentPickStartTime` to the current time, and seeds one empty roster
per player. -/
theorem start_draft_init (userId : String) (now : Nat) (c : Competition)
    (hcreator : c.creatorId = userId)
    (hstatus : c.status = "setup")
    (hplayers : c.players ≠ []) :
    startDraft userId now c = some
      { c with
        status := "in_progress"
        draftOrder := generateSnakeDraftOrder c.players 12
        currentPickIndex := 0
        currentPickerId := (generateSnakeDraftOrder c.players 12)[0]?
        currentPickStartTime := some now
        draftedFighters :=
          c.players.map (fun pId => (pId, ([] : Roster))) } ∧
    (generateSnakeDraftOrder c.players 12).length = c.players.length * 12 := by
  have h12 : WEIGHT_CLASSES.length + 1 = 12 := by decide
  constructor
  · unfold startDraft
    rw [if_neg (by simp [hcreator]), if_neg (by simp [hstatus]),
      if_neg (by simpa using hplayers)]
    simp [h12]
  · exact generateSnakeDraftOrder_length c.players 12

def compAB : Competition :=
  { name := "League"
    players := ["a", "b"]
    playerNames := [("a", "Alice"), ("b", "Bob")]
    status := "setup"
    createdAt := 0
    draftOrder := []
    currentPickIndex := 0
    currentPickerId := none
    currentPickStartTime := none
    draftedFighters := []
    creatorId := "a" }

/-- Witness for C5: the concrete two-player competition, with the
resulting 24-pick snake order spelled out. -/
theorem start_draft_init_witness :
    compAB.creatorId = "a" ∧ compAB.status = "setup" ∧
    compAB.players ≠ [] ∧
    (startDraft "a" 5 compAB = some
      { compAB with
        status := "in_progress"
        draftOrder := generateSnakeDraftOrder compAB.players 12
        currentPickIndex := 0
        currentPickerId := (generateSnakeDraftOrder compAB.players 12)[0]?
        currentPickStartTime := some 5
        draftedFighters :=
          compAB.players.map (fun pId => (pId, ([] : Roster))) } ∧
     (generateSnakeDraftOrder compAB.players 12).length =
       compAB.players.length * 12) ∧
    (startDraft "a" 5 compAB).map Competition.draftOrder = some
      ["a", "b", "b", "a", "a", "b", "b", "a", "a", "b", "b", "a",
       "a", "b", "b", "a", "a", "b", "b", "a", "a", "b", "b", "a"] :=
  ⟨rfl, rfl, by decide,
   start_draft_init "a" 5 compAB rfl rfl (by decide), by decide⟩

/-- Concrete fighters for the failing executions. -/
def jon : Fighter :=
  { id := "F1", name := "Jon", weightClass := "Heavyweight",
    imageUrl := "jon.png", opponent := none, fightDate := none,
    hasScheduledBout := some false }

def mike : Fighter :=
  { id := "F2", name := "Mike", weightClass := "Middleweight",
    imageUrl := "mike.png", opponent := some "Max",
    fightDate := some "2025-11-01", hasScheduledBout := some true }

/-- The started two-player competition. -/
def startedAB : Competition := (startDraft "a" 7 compAB).getD compAB

/-- After player a drafted `jon` (index 0) while player b is on the
clock (index 1) with `jon` sitting in a's roster. -/
def afterFirstPick : Competition :=
  (makePick "a" 10 jon [jon, mike] startedAB).getD startedAB


/-- C1: the claim fails on the code. `makePick` routes its
cross-player duplicate check through `getUndraftedFighters`, whose
first line returns `[]` whenever the fighter catalog list is empty, so
with an empty catalog the pick of a fighter already in another player's
roster commits and the fighter id ends up in two rosters; with a
non-empty catalog the same pick is rejected. -/
theorem empty_catalog_skips_global_check :
    jon.id ∈ allDraftedFighterIds afterFirstPick ∧
    afterFirstPick.currentPickerId = some "b" ∧
    afterFirstPick.status = "in_progress" ∧
    (makePick "b" 99 jon [] afterFirstPick).isSome = true ∧
    (makePick "b" 99 jon [] afterFirstPick).map
      (fun c => rostersContaining c jon.id) = some 2 ∧
    (makePick "b" 99 jon [jon, mike] afterFirstPick) = none := by
  decide

/-- Authoritative store state two picks ahead of snapshot `startedAB`. -/
def afterTwoPicks : Competition :=
  (makePick "b" 20 mike [jon, mike] afterFirstPick).getD afterFirstPick


/-- C7: the claim fails on the code. A pick validated against a stale
snapshot (index 0) is committed unconditionally against the
authoritative document (already at index 2): nothing in `makePick`
compares the snapshot to the store or uses a transaction, so the
stale commit succeeds, drags `currentPickIndex` back to 1 and erases
player b's committed pick from the store. -/
theorem stale_snapshot_commit_unchecked :
    startedAB.currentPickIndex = 0 ∧
    afterTwoPicks.currentPickIndex = 2 ∧
    rostersContaining afterTwoPicks mike.id = 1 ∧
    ((oget afterTwoPicks.draftedFighters "b").getD []).length = 1 ∧
    (makePickAt startedAB afterTwoPicks "a" 30 mike [jon, mike]).isSome
      = true ∧
    (makePickAt startedAB afterTwoPicks "a" 30 mike [jon, mike]).map
      Competition.currentPickIndex = some 1 ∧
    (makePickAt startedAB afterTwoPicks "a" 30 mike [jon, mike]).map
      (fun c => ((oget c.draftedFighters "b").getD []).length) = some 0 ∧
    (makePickAt startedAB afterTwoPicks "a" 30 mike [jon, mike]).map
      (fun c => rostersContaining c mike.id) = some 1 := by
  decide

theorem oget_eq_none_iff {β : Type} (m : List (String × β)) (k : String) :
    oget m k = none ↔ k ∉ okeys m := by
  induction m with
  | nil => simp [oget, okeys]
  | cons p rest ih =>
    by_cases hp : p.1 = k
    · simp [oget, okeys, hp]
    · simp [oget, okeys, hp, ih, Ne.symm hp]

theorem flex_not_weight_class : "Flex" ∉ WEIGHT_CLASSES := by decide

theorem weight_class_ne_flex {wc : String} (h : wc ∈ WEIGHT_CLASSES) :
    wc ≠ "Flex" := by
  intro hc
  exact flex_not_weight_class (hc ▸ h)

/-- With all roster keys legal (11 weight classes or Flex) and distinct,
an open weight-class slot forces fewer than 11 non-Flex keys. -/
theorem picked_count_lt (roster : Roster)
    (hnodup : (okeys roster).Nodup)
    (hkeys : ∀ k ∈ okeys roster, k ∈ WEIGHT_CLASSES ∨ k = "Flex")
    (wc : String) (hwc : wc ∈ WEIGHT_CLASSES)
    (hopen : oget roster wc = none) :
    ((okeys roster).filter (fun key => key != "Flex")).length <
      WEIGHT_CLASSES.length := by
  set picked := (okeys roster).filter (fun key => key != "Flex") with hp
  have hpickednodup : picked.Nodup := hnodup.filter _
  have hsub : ∀ k ∈ picked, k ∈ WEIGHT_CLASSES := by
    intro k hk
    have hk2 := List.mem_filter.mp hk
    rcases hkeys k hk2.1 with h | h
    · exact h
    · simp [h] at hk2
  have hwcnot : wc ∉ picked := by
    intro hc
    have := (List.mem_filter.mp hc).1
    exact (oget_eq_none_iff roster wc).mp hopen this
  have hfin : picked.toFinset ⊂ WEIGHT_CLASSES.toFinset := by
    constructor
    · intro k hk
      rw [List.mem_toFinset] at hk ⊢
      exact hsub k hk
    · intro hcon
      have : wc ∈ picked.toFinset := hcon (List.mem_toFinset.mpr hwc)
      exact hwcnot (List.mem_toFinset.mp this)
  have hcard : picked.toFinset.card < WEIGHT_CLASSES.toFinset.card :=
    Finset.card_lt_card hfin
  have h1 : picked.toFinset.card = picked.length :=
    List.toFinset_card_of_nodup hpickednodup
  have h2 : WEIGHT_CLASSES.toFinset.card = WEIGHT_CLASSES.length :=
    List.toFinset_card_of_nodup (by decide)
  omega

/-- C9: for the actor whose turn it is, the available-picks query
returns exactly the undrafted fighters that the slot-assignment logic
would accept for that actor's current roster (stated for rosters whose
keys are distinct and legal — the 11 weight classes or Flex — as every
roster the code builds is). -/
theorem available_picks_refinement (c : Competition) (userId : String)
    (allFighters : List Fighter)
    (hpicker : c.currentPickerId = some userId)
    (huid : userId ≠ "")
    (hnodup : (okeys ((oget c.draftedFighters userId).getD [])).Nodup)
    (hkeys : ∀ k ∈ okeys ((oget c.draftedFighters userId).getD []),
      k ∈ WEIGHT_CLASSES ∨ k = "Flex") :
    getMyAvailablePicks c userId allFighters =
      (getUndraftedFighters c allFighters).filter
        (fun fighter =>
          (assignSlot ((oget c.draftedFighters userId).getD [])
            fighter).isSome) := by
  unfold getMyAvailablePicks
  rw [if_neg huid, if_neg (by simp [hpicker])]
  by_cases hcat : allFighters.length = 0
  · rw [if_pos hcat]
    rw [getUndraftedFighters, if_pos hcat, List.filter_nil]
  · rw [if_neg hcat]
    apply List.filter_congr
    intro fighter hmem
    set roster := (oget c.draftedFighters userId).getD [] with hroster
    by_cases hA : fighter.weightClass ∈ WEIGHT_CLASSES ∧
      oget roster fighter.weightClass = none
    case pos =>
      have hcount := picked_count_lt roster hnodup hkeys fighter.weightClass
        hA.1 hA.2
      simp [assignSlot, hA.2, hA.1, hcount]
      exact Or.inl (Or.inl ((oget_eq_none_iff roster
        fighter.weightClass).mp hA.2))
    case neg =>
      have hnc : fighter.weightClass ∉
          (WEIGHT_CLASSES.filter (fun wc =>
            ! ((okeys roster).filter
              (fun key => key != "Flex")).contains wc)) := by
        intro hc
        rw [List.mem_filter] at hc
        obtain ⟨hwcs, hnp⟩ := hc
        apply hA
        refine ⟨hwcs, ?_⟩
        rw [oget_eq_none_iff]
        intro hkmem
        have hpick : fighter.weightClass ∈
            (okeys roster).filter (fun key => key != "Flex") :=
          List.mem_filter.mpr ⟨hkmem, by
            simpa using weight_class_ne_flex hwcs⟩
        simp [List.elem_iff, hpick] at hnp
      have hcond : ((oget roster fighter.weightClass).isNone &&
          WEIGHT_CLASSES.contains fighter.weightClass) = false := by
        rcases Decidable.not_and_iff_or_not.mp hA with h | h
        · simp [List.elem_iff, h]
        · simp [Option.isNone_iff_eq_none, h]
      have hkmem : oget roster fighter.weightClass ≠ none →
          fighter.weightClass ∈ okeys roster := by
        intro h
        by_contra hk
        exact h ((oget_eq_none_iff roster fighter.weightClass).mpr hk)
      by_cases hF : oget roster "Flex" = none
      all_goals rcases Decidable.not_and_iff_or_not.mp hA with h | h
      · simp [assignSlot, hcond, hF, h, Option.isSome_iff_ne_none]
      · by_cases hwcs : fighter.weightClass ∈ WEIGHT_CLASSES
        · simp [assignSlot, hcond, hF, hkmem h,
            weight_class_ne_flex hwcs, hwcs, h,
            Option.isSome_iff_ne_none]
        · simp [assignSlot, hcond, hF, hwcs, h,
            Option.isSome_iff_ne_none]
      · simp [assignSlot, hcond, hF, h, Option.isSome_iff_ne_none]
      · by_cases hwcs : fighter.weightClass ∈ WEIGHT_CLASSES
        · simp [assignSlot, hcond, hF, hkmem h,
            weight_class_ne_flex hwcs, hwcs, h,
            Option.isSome_iff_ne_none]
        · simp [assignSlot, hcond, hF, hwcs, h,
            Option.isSome_iff_ne_none]

/-- One client-initiated operation applied sequentially to the
authoritative competition document; a rejected operation leaves the
document unchanged (`Option.getD`). The shuffle step carries the fact
that the random sort emits a permutation of the current player list. -/
inductive Step : Competition → Competition → Prop
  | join (c : Competition) (userId displayName : String) :
      Step c ((joinCompetition userId displayName c).getD c)
  | shuffle (c : Competition) (userId : String) (shuffled : List String)
      (hperm : shuffled.Perm c.players) :
      Step c ((shufflePlayers userId shuffled c).getD c)
  | move (c : Competition) (userId playerToMoveId : String) (up : Bool) :
      Step c ((movePlayer userId playerToMoveId up c).getD c)
  | start (c : Competition) (userId : String) (now : Nat) :
      Step c ((startDraft userId now c).getD c)
  | pick (c : Competition) (userId : String) (now : Nat) (fighter : Fighter)
      (allFighters : List Fighter) :
      Step c ((makePick userId now fighter allFighters c).getD c)
  | rename (c : Competition) (userId newName : String) :
      Step c ((renameDisplayName userId newName c).getD c)

/-- Competition documents produced by `createCompetition` and closed
under the client operations. -/
inductive Reachable : Competition → Prop
  | created (competitionName userId displayName : String) (now : Nat)
      (c : Competition)
      (h : createCompetition competitionName userId displayName now =
        some c) :
      Reachable c
  | step (c c' : Competition) (hc : Reachable c) (hs : Step c c') :
      Reachable c'

/-- Lifecycle rank of a status string. -/
def statusRank (s : String) : Nat :=
  if s = "setup" then 0 else if s = "in_progress" then 1 else 2

/-- The state-machine invariant maintained by every operation. -/
def DraftInv (c : Competition) : Prop :=
  (c.status = "setup" ∨ c.status = "in_progress" ∨
    c.status = "completed") ∧
  (c.status = "in_progress" →
    c.currentPickIndex < c.draftOrder.length ∧
    c.currentPickerId = c.draftOrder[c.currentPickIndex]?) ∧
  (c.status ≠ "in_progress" → c.currentPickerId = none) ∧
  (∀ p ∈ c.players, p ≠ "") ∧
  (∀ p ∈ c.draftOrder, p ≠ "")

theorem inv_created (competitionName userId displayName : String)
    (now : Nat) (c : Competition)
    (h : createCompetition competitionName userId displayName now = some c) :
    DraftInv c := by
  unfold createCompetition at h
  by_cases h1 : userId = ""
  · rw [if_pos h1] at h; cases h
  · rw [if_neg h1] at h
    by_cases h2 : jsTrim competitionName = ""
    · rw [if_pos h2] at h; cases h
    · rw [if_neg h2] at h
      obtain rfl := (Option.some.injEq _ _).mp h.symm
      refine ⟨Or.inl rfl, ?_, ?_, ?_, ?_⟩
      · intro hc
        simp at hc
      · intro _
        rfl
      · intro p hp
        simp at hp
        rw [hp]
        exact h1
      · intro p hp
        simp at hp

theorem indexOf?_lt_length {l : List String} {a : String} {i : Nat}
    (h : l.indexOf? a = some i) : i < l.length := by
  induction l generalizing i with
  | nil => simp at h
  | cons x xs ih =>
    rw [List.indexOf?_cons] at h
    by_cases hx : (x == a) = true
    · rw [if_pos hx] at h
      obtain rfl := (Option.some.injEq _ _).mp h.symm
      simp
    · rw [if_neg hx] at h
      cases hxs : xs.indexOf? a with
      | none => rw [hxs] at h; simp at h
      | some j =>
        rw [hxs] at h
        simp at h
        have := ih hxs
        simp
        omega

theorem inv_join (c : Competition) (userId displayName : String)
    (hinv : DraftInv c) :
    DraftInv ((joinCompetition userId displayName c).getD c) := by
  unfold joinCompetition
  by_cases h1 : userId = ""
  · simpa [h1] using hinv
  rw [if_neg h1]
  by_cases h2 : c.status = "setup"
  case neg => simpa [h2] using hinv
  rw [if_neg (by simp [h2])]
  by_cases h3 : userId ∈ c.players
  · simpa [h3] using hinv
  rw [if_neg (by simpa using h3)]
  obtain ⟨hs, hip, hnip, hpl, hdo⟩ := hinv
  refine ⟨Or.inl h2, ?_, ?_, ?_, hdo⟩
  · intro hc
    simp at hc
    rw [h2] at hc
    exact absurd hc (by decide)
  · intro _
    exact hnip (by rw [h2]; decide)
  · intro p hp
    simp at hp
    rcases hp with hp | hp
    · exact hpl p hp
    · rw [hp]; exact h1

theorem inv_shuffle (c : Competition) (userId : String)
    (shuffled : List String) (hperm : shuffled.Perm c.players)
    (hinv : DraftInv c) :
    DraftInv ((shufflePlayers userId shuffled c).getD c) := by
  unfold shufflePlayers
  by_cases h1 : c.creatorId = userId
  case neg => simpa [h1] using hinv
  rw [if_neg (by simp [h1])]
  by_cases h2 : c.status = "setup"
  case neg => simpa [h2] using hinv
  rw [if_neg (by simp [h2])]
  obtain ⟨hs, hip, hnip, hpl, hdo⟩ := hinv
  refine ⟨Or.inl h2, ?_, ?_, ?_, hdo⟩
  · intro hc
    simp at hc
    rw [h2] at hc
    exact absurd hc (by decide)
  · intro _
    exact hnip (by rw [h2]; decide)
  · intro p hp
    simp at hp
    exact hpl p (hperm.mem_iff.mp hp)

theorem inv_rename (c : Competition) (userId newName : String)
    (hinv : DraftInv c) :
    DraftInv ((renameDisplayName userId newName c).getD c) := by
  unfold renameDisplayName
  by_cases h1 : userId = ""
  · simpa [h1] using hinv
  rw [if_neg h1]
  obtain ⟨hs, hip, hnip, hpl, hdo⟩ := hinv
  exact ⟨hs, hip, hnip, hpl, hdo⟩

theorem inv_move (c : Competition) (userId playerToMoveId : String)
    (up : Bool) (hinv : DraftInv c) :
    DraftInv ((movePlayer userId playerToMoveId up c).getD c) := by
  simp only [movePlayer]
  by_cases h1 : c.creatorId = userId
  case neg => simpa [h1] using hinv
  rw [if_neg (by simp [h1])]
  by_cases h2 : c.status = "setup"
  case neg => simpa [h2] using hinv
  rw [if_neg (by simp [h2])]
  cases hidx : c.players.indexOf? playerToMoveId with
  | none => simpa using hinv
  | some index =>
    dsimp only
    have hlt := indexOf?_lt_length hidx
    obtain ⟨hs, hip, hnip, hpl, hdo⟩ := hinv
    have hget : ∀ j, j < c.players.length → c.players[j]?.getD "" ∈
        c.players := by
      intro j hj
      rw [List.getElem?_eq_getElem hj]
      exact List.getElem_mem hj
    have hswap : ∀ i j, i < c.players.length → j < c.players.length →
        ∀ p ∈ (c.players.set i (c.players[j]?.getD "")).set j
          (c.players[i]?.getD ""), p ≠ "" := by
      intro i j hi hj p hp
      rcases List.mem_or_eq_of_mem_set hp with hp2 | hp2
      · rcases List.mem_or_eq_of_mem_set hp2 with hp3 | hp3
        · exact hpl p hp3
        · rw [hp3]; exact hpl _ (hget j hj)
      · rw [hp2]; exact hpl _ (hget i hi)
    by_cases h3 : up = true ∧ 0 < index
    · rw [if_pos h3]
      simp only [Option.getD_some]
      refine ⟨Or.inl h2, ?_, ?_, ?_, hdo⟩
      · intro hc
        simp at hc
        rw [h2] at hc
        exact absurd hc (by decide)
      · intro _
        exact hnip (by rw [h2]; decide)
      · intro p hp
        simp at hp
        exact hswap (index - 1) index (by omega) hlt p hp
    · rw [if_neg h3]
      by_cases h4 : ¬ up = true ∧ index < c.players.length - 1
      · rw [if_pos h4]
        simp only [Option.getD_some]
        refine ⟨Or.inl h2, ?_, ?_, ?_, hdo⟩
        · intro hc
          simp at hc
          rw [h2] at hc
          exact absurd hc (by decide)
        · intro _
          exact hnip (by rw [h2]; decide)
        · intro p hp
          simp at hp
          exact hswap (index + 1) index (by omega) hlt p hp
      · rw [if_neg h4]
        simpa using ⟨hs, hip, hnip, hpl, hdo⟩

theorem inv_start (c : Competition) (userId : String) (now : Nat)
    (hinv : DraftInv c) :
    DraftInv ((startDraft userId now c).getD c) := by
  unfold startDraft
  by_cases h1 : c.creatorId = userId
  case neg => simpa [h1] using hinv
  rw [if_neg (by simp [h1])]
  by_cases h2 : c.status = "setup"
  case neg => simpa [h2] using hinv
  rw [if_neg (by simp [h2])]
  by_cases h3 : c.players.length = 0
  · simpa [h3] using hinv
  rw [if_neg h3]
  obtain ⟨hs, hip, hnip, hpl, hdo⟩ := hinv
  have hmemorder : ∀ p ∈ generateSnakeDraftOrder c.players
      (WEIGHT_CLASSES.length + 1), p ≠ "" := by
    intro p hp
    unfold generateSnakeDraftOrder at hp
    rw [List.mem_flatMap] at hp
    obtain ⟨i, -, hpi⟩ := hp
    by_cases he : i % 2 = 0
    · rw [if_pos he] at hpi
      exact hpl p hpi
    · rw [if_neg he] at hpi
      exact hpl p (List.mem_reverse.mp hpi)
  have hlen : 0 < (generateSnakeDraftOrder c.players
      (WEIGHT_CLASSES.length + 1)).length := by
    rw [generateSnakeDraftOrder_length]
    exact Nat.mul_pos (Nat.pos_of_ne_zero h3) (by decide)
  refine ⟨Or.inr (Or.inl rfl), ?_, ?_, hpl, ?_⟩
  · intro _
    refine ⟨by simpa using hlen, by simp⟩
  · intro hc
    simp at hc
  · intro p hp
    simp at hp
    exact hmemorder p hp

theorem inv_pick (c : Competition) (userId : String) (now : Nat)
    (fighter : Fighter) (allFighters : List Fighter)
    (hinv : DraftInv c) :
    DraftInv ((makePick userId now fighter allFighters c).getD c) := by
  cases hm : makePick userId now fighter allFighters c with
  | none => simpa using hinv
  | some c' =>
    obtain ⟨slot, hslot, hpicker, hstatus, -, -, rfl⟩ :=
      makePick_some_shape userId now fighter allFighters c c' hm
    obtain ⟨hs, hip, hnip, hpl, hdo⟩ := hinv
    obtain ⟨hlt, hpeq⟩ := hip hstatus
    simp only [Option.getD_some]
    by_cases hend : c.draftOrder.length ≤ c.currentPickIndex + 1
    · refine ⟨Or.inr (Or.inr ?_), ?_, ?_, hpl, hdo⟩
      · simp [pickCommitResult, hend]
      · intro hc
        simp [pickCommitResult, hend] at hc
      · intro _
        have hnone : c.draftOrder[c.currentPickIndex + 1]? = none := by
          rw [List.getElem?_eq_none_iff]
          omega
        simp [pickCommitResult, hnone, orNull]
    · have hlt2 : c.currentPickIndex + 1 < c.draftOrder.length := by omega
      have hsome : c.draftOrder[c.currentPickIndex + 1]? =
          some (c.draftOrder[c.currentPickIndex + 1]) :=
        List.getElem?_eq_getElem hlt2
      have hnz : c.draftOrder[c.currentPickIndex + 1] ≠ "" :=
        hdo _ (List.getElem_mem hlt2)
      refine ⟨Or.inr (Or.inl ?_), ?_, ?_, hpl, hdo⟩
      · simp [pickCommitResult, hend]
      · intro _
        constructor
        · simp [pickCommitResult]
          omega
        · simp [pickCommitResult, hsome, orNull, hnz]
      · intro hc
        simp [pickCommitResult, hend] at hc

theorem step_inv (c c' : Competition) (hinv : DraftInv c)
    (hs : Step c c') : DraftInv c' := by
  cases hs with
  | join userId displayName => exact inv_join c userId displayName hinv
  | shuffle userId shuffled hperm =>
    exact inv_shuffle c userId shuffled hperm hinv
  | move userId playerToMoveId up =>
    exact inv_move c userId playerToMoveId up hinv
  | start userId now => exact inv_start c userId now hinv
  | pick userId now fighter allFighters =>
    exact inv_pick c userId now fighter allFighters hinv
  | rename userId newName => exact inv_rename c userId newName hinv

theorem reachable_inv (c : Competition) (h : Reachable c) : DraftInv c := by
  induction h with
  | created competitionName userId displayName now c hc =>
    exact inv_created competitionName userId displayName now c hc
  | step c c' hc hs ih => exact step_inv c c' ih hs

theorem joinCompetition_status (userId displayName : String)
    (c : Competition) :
    ((joinCompetition userId displayName c).getD c).status = c.status := by
  unfold joinCompetition
  split
  · rfl
  split
  · rfl
  split <;> rfl

theorem shufflePlayers_status (userId : String) (shuffled : List String)
    (c : Competition) :
    ((shufflePlayers userId shuffled c).getD c).status = c.status := by
  unfold shufflePlayers
  split
  · rfl
  split <;> rfl

theorem movePlayer_status (userId playerToMoveId : String) (up : Bool)
    (c : Competition) :
    ((movePlayer userId playerToMoveId up c).getD c).status = c.status := by
  simp only [movePlayer]
  split
  · rfl
  split
  · rfl
  cases hidx : c.players.indexOf? playerToMoveId with
  | none => rfl
  | some index =>
    dsimp only
    split
    · rfl
    split <;> rfl

theorem renameDisplayName_status (userId newName : String)
    (c : Competition) :
    ((renameDisplayName userId newName c).getD c).status = c.status := by
  unfold renameDisplayName
  split <;> rfl

theorem startDraft_status (userId : String) (now : Nat) (c : Competition) :
    ((startDraft userId now c).getD c).status = c.status ∨
    (c.status = "setup" ∧
      ((startDraft userId now c).getD c).status = "in_progress") := by
  unfold startDraft
  split
  · exact Or.inl rfl
  split
  · exact Or.inl rfl
  split
  · exact Or.inl rfl
  rename_i h1 h2 h3
  exact Or.inr ⟨not_not.mp h2, rfl⟩

theorem makePick_status (userId : String) (now : Nat) (fighter : Fighter)
    (allFighters : List Fighter) (c : Competition) :
    ((makePick userId now fighter allFighters c).getD c).status =
      c.status ∨
    (c.status = "in_progress" ∧
      (((makePick userId now fighter allFighters c).getD c).status =
          "completed" ∨
        ((makePick userId now fighter allFighters c).getD c).status =
          "in_progress")) := by
  cases hm : makePick userId now fighter allFighters c with
  | none => exact Or.inl rfl
  | some c' =>
    obtain ⟨slot, -, -, hstatus, -, -, rfl⟩ :=
      makePick_some_shape userId now fighter allFighters c c' hm
    right
    refine ⟨hstatus, ?_⟩
    by_cases hend : c.draftOrder.length ≤ c.currentPickIndex + 1
    · exact Or.inl (by simp [pickCommitResult, hend])
    · exact Or.inr (by simp [pickCommitResult, hend])

theorem step_rank (c c' : Competition) (hs : Step c c') :
    statusRank c.status ≤ statusRank c'.status ∧
    statusRank c'.status ≤ statusRank c.status + 1 := by
  cases hs with
  | join userId displayName =>
    rw [joinCompetition_status]
    exact ⟨Nat.le_refl _, Nat.le_succ _⟩
  | shuffle userId shuffled hperm =>
    rw [shufflePlayers_status]
    exact ⟨Nat.le_refl _, Nat.le_succ _⟩
  | move userId playerToMoveId up =>
    rw [movePlayer_status]
    exact ⟨Nat.le_refl _, Nat.le_succ _⟩
  | rename userId newName =>
    rw [renameDisplayName_status]
    exact ⟨Nat.le_refl _, Nat.le_succ _⟩
  | start userId now =>
    rcases startDraft_status userId now c with h | ⟨h1, h2⟩
    · rw [h]
      exact ⟨Nat.le_refl _, Nat.le_succ _⟩
    · rw [h1, h2]
      decide
  | pick userId now fighter allFighters =>
    rcases makePick_status userId now fighter allFighters c with
      h | ⟨h1, h2⟩
    · rw [h]
      exact ⟨Nat.le_refl _, Nat.le_succ _⟩
    · rcases h2 with h2 | h2 <;> rw [h1, h2] <;> decide

theorem inv_picker_iff (c : Competition) (hinv : DraftInv c) :
    c.currentPickerId ≠ none ↔
      (c.status = "in_progress" ∧
        c.currentPickIndex < c.draftOrder.length) := by
  obtain ⟨hs, hip, hnip, -, -⟩ := hinv
  constructor
  · intro hne
    by_cases h : c.status = "in_progress"
    · exact ⟨h, (hip h).1⟩
    · exact absurd (hnip h) hne
  · rintro ⟨h, hlt⟩
    obtain ⟨hlt2, hpeq⟩ := hip h
    rw [hpeq, List.getElem?_eq_getElem hlt2]
    simp


/-- C6: over every operation applied to a reachable competition, the
status rank (`setup` 0, `in_progress` 1, `completed` 2) never decreases
and rises by at most one — hence the status only ever moves
`setup → in_progress → completed`, each transition at most once, never
reversed or skipped — and in both the pre- and post-state
`currentPickerId` is non-null exactly when the status is `in_progress`
and the draft is not yet exhausted. -/
theorem status_machine (c c' : Competition) (hr : Reachable c)
    (hs : Step c c') :
    (statusRank c.status ≤ statusRank c'.status ∧
      statusRank c'.status ≤ statusRank c.status + 1) ∧
    (c.currentPickerId ≠ none ↔
      (c.status = "in_progress" ∧
        c.currentPickIndex < c.draftOrder.length)) ∧
    (c'.currentPickerId ≠ none ↔
      (c'.status = "in_progress" ∧
        c'.currentPickIndex < c'.draftOrder.length)) :=
  ⟨step_rank c c' hs,
   inv_picker_iff c (reachable_inv c hr),
   inv_picker_iff c' (reachable_inv c' (Reachable.step c c' hr hs))⟩

/-- The one-player competition as created by player a. -/
def createdA : Competition :=
  (createCompetition "League" "a" "Alice" 0).getD compAB

/-- Witness for C6: the competition created by player a takes a `start`
step. -/
theorem status_machine_witness :
    (statusRank createdA.status ≤ statusRank
        ((startDraft "a" 7 createdA).getD createdA).status ∧
      statusRank ((startDraft "a" 7 createdA).getD createdA).status ≤
        statusRank createdA.status + 1) ∧
    (createdA.currentPickerId ≠ none ↔
      (createdA.status = "in_progress" ∧
        createdA.currentPickIndex < createdA.draftOrder.length)) ∧
    (((startDraft "a" 7 createdA).getD createdA).currentPickerId ≠ none ↔
      (((startDraft "a" 7 createdA).getD createdA).status =
          "in_progress" ∧
        ((startDraft "a" 7 createdA).getD createdA).currentPickIndex <
          ((startDraft "a" 7 createdA).getD createdA).draftOrder.length)) :=
  status_machine createdA ((startDraft "a" 7 createdA).getD createdA)
    (Reachable.created "League" "a" "Alice" 0 createdA (by decide))
    (Step.start createdA "a" 7)

/-- A roster holding one Middleweight pick, for the witnesses. -/
def rosterW : Roster := [("Middleweight", toPicked mike)]

/-- Witness for C2 at a Heavyweight fighter against a roster holding
one Middleweight pick. -/
theorem assign_slot_priority_witness :
    ((ovals rosterW).any (fun f => f.id == jon.id) = false ∧
      jon.weightClass ∈ WEIGHT_CLASSES) ∧
    (((oget rosterW jon.weightClass = none ∧
        ((okeys rosterW).filter (fun key => key != "Flex")).length <
          WEIGHT_CLASSES.length) →
      (assignSlot rosterW jon = some jon.weightClass ∧
        jon.weightClass ≠ "Flex")) ∧
    (¬ (oget rosterW jon.weightClass = none ∧
        ((okeys rosterW).filter (fun key => key != "Flex")).length <
          WEIGHT_CLASSES.length) →
      ((oget rosterW "Flex" = none → assignSlot rosterW jon = some "Flex") ∧
       ((oget rosterW "Flex").isSome → assignSlot rosterW jon = none)))) :=
  ⟨⟨by decide, by decide⟩,
   assign_slot_priority rosterW jon (by decide) (by decide)⟩

/-- Witness for C3 at player a's opening pick of the started
two-player competition. -/
theorem pick_advances_index_witness :
    (startedAB.status = "in_progress" ∧
      startedAB.currentPickIndex < startedAB.draftOrder.length ∧
      "" ∉ startedAB.draftOrder) ∧
    startedAB.currentPickIndex ≤
      ((makePick "a" 10 jon [jon, mike] startedAB).getD
        startedAB).currentPickIndex ∧
    afterFirstPick.currentPickIndex = startedAB.currentPickIndex + 1 ∧
    afterFirstPick.status = "in_progress" ∧
    afterFirstPick.currentPickerId =
      startedAB.draftOrder[startedAB.currentPickIndex + 1]? ∧
    afterFirstPick.currentPickStartTime = some 10 :=
  ⟨⟨rfl, by decide, by decide⟩,
   (pick_advances_index "a" 10 jon [jon, mike] startedAB rfl (by decide)
      (by decide)).1,
   ((pick_advances_index "a" 10 jon [jon, mike] startedAB rfl (by decide)
      (by decide)).2 afterFirstPick (by decide)).1,
   (((pick_advances_index "a" 10 jon [jon, mike] startedAB rfl (by decide)
      (by decide)).2 afterFirstPick (by decide)).2.2 (by decide)).1,
   (((pick_advances_index "a" 10 jon [jon, mike] startedAB rfl (by decide)
      (by decide)).2 afterFirstPick (by decide)).2.2 (by decide)).2.1,
   (((pick_advances_index "a" 10 jon [jon, mike] startedAB rfl (by decide)
      (by decide)).2 afterFirstPick (by decide)).2.2 (by decide)).2.2⟩

/-- Witness for C9 at player b's turn after the first pick. -/
theorem available_picks_refinement_witness :
    (afterFirstPick.currentPickerId = some "b" ∧ "b" ≠ "") ∧
    getMyAvailablePicks afterFirstPick "b" [jon, mike] =
      (getUndraftedFighters afterFirstPick [jon, mike]).filter
        (fun fighter =>
          (assignSlot ((oget afterFirstPick.draftedFighters "b").getD [])
            fighter).isSome) :=
  ⟨⟨by decide, by decide⟩,
   available_picks_refinement afterFirstPick "b" [jon, mike] (by decide)
     (by decide) (by decide) (by decide)⟩

/-- A fighter whose division is not one of the 11 listed weight classes. -/
def sumo : Fighter :=
  { id := "F3", name := "Taro", weightClass := "Openweight",
    imageUrl := "taro.png", opponent := none, fightDate := none,
    hasScheduledBout := none }

/-- Witness for C10 at an `Openweight` fighter picked into an empty
roster. -/
theorem unknown_wc_flex_witness :
    sumo.weightClass ∉ WEIGHT_CLASSES ∧
    assignSlot ((oget startedAB.draftedFighters "a").getD []) sumo =
      (if (oget ((oget startedAB.draftedFighters "a").getD [])
          "Flex").isSome then none else some "Flex") ∧
    oget ((makePick "a" 15 sumo [sumo] startedAB).getD
        startedAB).draftedFighters "a" =
      some (objSet ((oget startedAB.draftedFighters "a").getD []) "Flex"
        (toPicked sumo)) :=
  ⟨by decide,
   (unknown_wc_flex startedAB "a" 15 sumo [sumo] (by decide)).1,
   (unknown_wc_flex startedAB "a" 15 sumo [sumo] (by decide)).2.2
     ((makePick "a" 15 sumo [sumo] startedAB).getD startedAB) (by decide)⟩
